import Mathlib

/-!
# Vyra backend services

A shallow embedding of the four service packages of the Vyra backend
(`internal/services/wallet`, `bridge`, `paymaster`, `payment`) together with
the few standard-library operations they call (`strings.HasPrefix`, string
slicing, `crypto/rand.Read`, `encoding/hex.EncodeToString`).

* Go strings are byte sequences, so they are lists of bytes here.
* The secure random source is explicit state: a `World` carries the bytes the
  source is going to deliver, and every `rand.Read` consumes a prefix of them.
* A Go `(value, error)` result is a pair whose second component is `none` for
  a `nil` error.
* The go-ethereum functions used by `wallet.Connect` live outside the
  repository and are taken as a parameter (`Crypto`).
-/

namespace Vyra

/-! ## Go strings, errors and maps -/

/-- A Go string: an immutable sequence of bytes. -/
abbrev GoString := List UInt8

/-- The Go string written by a source literal (its UTF-8 bytes). -/
def str (s : String) : GoString := s.toUTF8.data.toList

/-- A non-nil Go `error`, identified with the text that `Error()` returns. -/
structure GoError where
  msg : GoString
deriving DecidableEq, Repr

/-- A Go result `(string, error)`; `none` is the `nil` error. -/
abbrev StringResult := GoString × Option GoError

/-- A `map[string]interface{}` all of whose stored values are strings, as the list
of its key/value pairs. -/
abbrev GoMap := List (GoString × GoString)

/-- Map indexing `m[key]`; `none` when the key is absent. -/
def GoMap.get (m : GoMap) (key : GoString) : Option GoString := m.lookup key

/-- What running a function body leads to: it returns a value, or it panics. -/
inductive Outcome (α : Type) where
  | returns (v : α)
  | panics
deriving DecidableEq, Repr

namespace strings

/-- Go `strings.HasPrefix`: `len(s) >= len(prefix) && s[:len(prefix)] == prefix`. -/
def HasPrefix (s pre : GoString) : Bool :=
  decide (pre.length ≤ s.length) && (s.take pre.length == pre)

end strings

/-- The slice expression `s[n:]`: out of range (a run-time panic) when `n > len(s)`. -/
def sliceFrom (s : GoString) (n : Nat) : Option GoString :=
  if n ≤ s.length then some (s.drop n) else none

/-! ## The secure random source -/

/-- The part of the outside world the services read: the stream of bytes the
operating system's secure random source delivers, in order. -/
structure World where
  entropy : Nat → UInt8

/-- Go `bytes := make([]byte, n); rand.Read(bytes)`: the next `n` bytes of the
source, and the world in which they have been consumed. -/
def randRead (w : World) (n : Nat) : List UInt8 × World :=
  ((List.range n).map w.entropy, ⟨fun i => w.entropy (n + i)⟩)

namespace hex

/-- The digit table of `encoding/hex`. -/
def hextable : GoString := str "0123456789abcdef"

/-- The table entry `hextable[i]` (only indices below 16 are ever used). -/
def digit (i : Nat) : UInt8 := hextable.getD i 0

/-- Go `hex.EncodeToString`: every byte `v` becomes the two digits
`hextable[v>>4]`, `hextable[v&0x0f]`. -/
def EncodeToString : List UInt8 → GoString
  | [] => []
  | v :: rest => digit (v.toNat / 16) :: digit (v.toNat % 16) :: EncodeToString rest

end hex

/-! ## Configuration -/

namespace config

/-- The process configuration (`config.Config`). -/
structure Config where
  Port : GoString
  DatabaseURL : GoString
  RedisURL : GoString
  RPCURL : GoString
  ChainID : Int
  LogLevel : GoString
  JWTSecret : GoString
  VyraToken : GoString
  Paymaster : GoString
  POS : GoString
  Bridge : GoString
  EntryPoint : GoString

end config

/-! ## Wallet service -/

namespace ecdsa

/-- Go `ecdsa.PublicKey`: a curve point. -/
structure PublicKey where
  X : Int
  Y : Int
deriving DecidableEq, Repr

/-- Go `ecdsa.PrivateKey`: the embedded public key and the secret scalar `D`. -/
structure PrivateKey where
  PublicKey : PublicKey
  D : Int
deriving DecidableEq, Repr

end ecdsa

namespace crypto

/-- The interface type `crypto.PublicKey`: a value of any key type. -/
inductive PublicKey where
  | ecdsa (k : Vyra.ecdsa.PublicKey)
  | other
deriving DecidableEq, Repr

end crypto

/-- Go `(*ecdsa.PrivateKey).Public`: the embedded public key, as a `crypto.PublicKey`. -/
def ecdsa.PrivateKey.Public (priv : ecdsa.PrivateKey) : crypto.PublicKey :=
  .ecdsa priv.PublicKey

/-- The go-ethereum functions `wallet.Connect` calls. They are not part of the
repository, so the wallet model is parametric in them. -/
structure Crypto where
  /-- Go `crypto.HexToECDSA`: parse a hex string as a secp256k1 private key. -/
  HexToECDSA : GoString → Except GoError ecdsa.PrivateKey
  /-- Go `crypto.PubkeyToAddress`: the 20-byte address of a public key. -/
  PubkeyToAddress : ecdsa.PublicKey → List UInt8
  /-- Go `common.Address.Hex`: the checksummed text form of an address. -/
  Hex : List UInt8 → GoString

namespace wallet

/-- Go `wallet.Service`. The chain client is an opaque handle, kept as the
URL it was dialled with. -/
structure Service where
  config : config.Config
  client : GoString
  vyraToken : List UInt8

/-- Go `(*Service).Connect`. -/
def Connect (lib : Crypto) (_s : Service)
    (connectionType privateKey _mnemonic : GoString) (_derivationIndex : Int) :
    Outcome StringResult :=
  if connectionType = str "privateKey" then
    let privateKey :=
      if !strings.HasPrefix privateKey (str "0x") then str "0x" ++ privateKey else privateKey
    match sliceFrom privateKey 2 with
    | none => .panics
    | some hexkey =>
      match lib.HexToECDSA hexkey with
      | .error err => .returns ([], some ⟨str "invalid private key: " ++ err.msg⟩)
      | .ok privateKeyECDSA =>
        match privateKeyECDSA.Public with
        | .ecdsa publicKeyECDSA =>
          .returns (lib.Hex (lib.PubkeyToAddress publicKeyECDSA), none)
        | .other => .returns ([], some ⟨str "error casting public key to ECDSA"⟩)
  else if connectionType = str "mnemonic" then
    .returns ([], some ⟨str "mnemonic connection not implemented yet"⟩)
  else
    .returns ([], some ⟨str "unsupported connection type: " ++ connectionType⟩)

end wallet

/-! ## Bridge service -/

namespace bridge

/-- Go `bridge.Service`. -/
structure Service where
  config : config.Config

/-- Go `bridge.New`. -/
def New (cfg : config.Config) : Service := ⟨cfg⟩

/-- Go `(*Service).Deposit`: the result and the world after the call. -/
def Deposit (_s : Service) (w : World) (_amount : GoString) : StringResult × World :=
  let (bytes, w1) := randRead w 32
  let depositID := hex.EncodeToString bytes
  ((depositID, none), w1)

/-- Go `(*Service).Withdraw`: the result and the world after the call. -/
def Withdraw (_s : Service) (w : World) (_amount _l2TxHash : GoString)
    (_signatures : List GoString) : StringResult × World :=
  let (bytes, w1) := randRead w 32
  let withdrawalID := hex.EncodeToString bytes
  ((withdrawalID, none), w1)

/-- Go `(*Service).GetStatus`. -/
def GetStatus (_s : Service) (txID : GoString) : GoMap × Option GoError :=
  ([(str "id", txID), (str "status", str "pending"), (str "type", str "deposit")], none)

end bridge

/-! ## Paymaster service -/

namespace paymaster

/-- Go `paymaster.Service`. -/
structure Service where
  config : config.Config

/-- Go `paymaster.New`. -/
def New (cfg : config.Config) : Service := ⟨cfg⟩

/-- Go `(*Service).CreateSessionKey`: the result and the world after the call. -/
def CreateSessionKey (_s : Service) (w : World) (_expiry : Int) : StringResult × World :=
  let (bytes, w1) := randRead w 20
  let sessionKey := str "0x" ++ hex.EncodeToString bytes
  ((sessionKey, none), w1)

/-- Go `(*Service).RevokeSessionKey`. -/
def RevokeSessionKey (_s : Service) : Option GoError := none

/-- Go `(*Service).SponsorGas`: the result and the world after the call. -/
def SponsorGas (_s : Service) (w : World) (_user _gasUsed _signature : GoString) :
    StringResult × World :=
  let (bytes, w1) := randRead w 32
  let txHash := str "0x" ++ hex.EncodeToString bytes
  ((txHash, none), w1)

end paymaster

/-! ## Payment service -/

namespace payment

/-- Go `payment.Service`. -/
structure Service where
  config : config.Config

/-- Go `payment.New`. -/
def New (cfg : config.Config) : Service := ⟨cfg⟩

/-- Go `(*Service).CreateInvoice`: the result and the world after the call. -/
def CreateInvoice (_s : Service) (w : World) (_amount _description : GoString)
    (_expiry : Int) : StringResult × World :=
  let (bytes, w1) := randRead w 32
  let invoiceID := hex.EncodeToString bytes
  ((invoiceID, none), w1)

/-- Go `(*Service).GetPayment`. -/
def GetPayment (_s : Service) (paymentID : GoString) : GoMap × Option GoError :=
  ([(str "id", paymentID), (str "status", str "pending"), (str "amount", str "0.0"),
    (str "description", str "Sample payment")], none)

/-- Go `(*Service).ProcessPayment`. -/
def ProcessPayment (_s : Service) (_paymentID _customer : GoString) : StringResult :=
  (str "0xplaceholder_tx_hash", none)

end payment

/-! ## Auxiliary notions used to state the properties -/

namespace wallet

/-- The key text with its leading `0x` marker, when present, taken off: what is
left of `privateKey` once `Connect` has normalised and sliced it. -/
def keyDigits (privateKey : GoString) : GoString :=
  if strings.HasPrefix privateKey (str "0x") then privateKey.drop 2 else privateKey

end wallet

namespace hex

/-- A lower-case hex digit: one of the bytes `0`-`9`, `a`-`f`. -/
def isLowerHexDigit (c : UInt8) : Prop :=
  (48 ≤ c.toNat ∧ c.toNat ≤ 57) ∨ (97 ≤ c.toNat ∧ c.toNat ≤ 102)

instance (c : UInt8) : Decidable (isLowerHexDigit c) := by
  unfold isLowerHexDigit; infer_instance

end hex

/-! ### Notions of the specification that the code does not have -/

namespace spec

/-- The specification's "positive decimal number", read on the text of an
amount: digits with at most one decimal point, at least one digit not zero. -/
def isPositiveDecimal (amount : GoString) : Bool :=
  amount.all (fun c => (decide (48 ≤ c.toNat) && decide (c.toNat ≤ 57)) || c == 46)
    && decide (amount.count 46 ≤ 1)
    && amount.any (fun c => decide (49 ≤ c.toNat) && decide (c.toNat ≤ 57))

/-- The specification's "count of distinct valid validator signatures" of a
request, for a given notion `valid` of a valid attestation. -/
def distinctValidCount (valid : GoString → Bool) (signatures : List GoString) : Nat :=
  ((signatures.filter valid).dedup).length

end spec

/-! ## Concrete inputs

Small values on which the model is evaluated. -/

/-- The default configuration of `config.Load` (no environment variable set). -/
def defaultConfig : config.Config where
  Port := str "8080"
  DatabaseURL := str "postgres://localhost/vyra?sslmode=disable"
  RedisURL := str "redis://localhost:6379"
  RPCURL := str "http://localhost:8545"
  ChainID := 31337
  LogLevel := str "info"
  JWTSecret := str "your-secret-key"
  VyraToken := str "0x5FbDB2315678afecb367f032d93F642f64180aa3"
  Paymaster := str "0xe7f1725E7734CE288F8367e1Bb143E90bb3F0512"
  POS := str "0x9fE46736679d2D9a65F0992F2272dE9f3c7fa6e0"
  Bridge := str "0xCf7Ed3AccA5a467e9e704C703E8D87F634fB0Fc9"
  EntryPoint := str "0x0165878A594ca255338adfa4d48449f69242Eb8F"

/-- A wallet service over the default configuration. -/
def walletService : wallet.Service := ⟨defaultConfig, defaultConfig.RPCURL, []⟩

/-- A world whose random source delivers the bytes 0, 1, 2, ... (mod 256). -/
def countingWorld : World := ⟨fun i => UInt8.ofNat i⟩

/-- A stand-in for the go-ethereum functions, used to run the wallet model: it
accepts exactly the strings of 64 bytes, always yields the scalar 1 with the
point (1, 2), takes the two coordinates as the address bytes, and prints an
address as `0x` followed by its hex digits. -/
def sampleCrypto : Crypto where
  HexToECDSA := fun h =>
    if h.length = 64 then .ok ⟨⟨1, 2⟩, 1⟩ else .error ⟨str "invalid length, need 256 bits"⟩
  PubkeyToAddress := fun k => [UInt8.ofNat k.X.toNat, UInt8.ofNat k.Y.toNat]
  Hex := fun a => str "0x" ++ hex.EncodeToString a

/-- A key text the stand-in parser accepts: 64 hex digits, no marker. -/
def sampleKey : GoString :=
  str "00000000000000000000000000000000000000000000000000000000000000a1"

/-- A bridge service over the default configuration. -/
def bridgeService : bridge.Service := bridge.New defaultConfig

/-- A paymaster service over the default configuration. -/
def paymasterService : paymaster.Service := paymaster.New defaultConfig

/-- A payment service over the default configuration. -/
def paymentService : payment.Service := payment.New defaultConfig

/-- The withdrawal of the specification's scenario: amount 10, source hash
`0xabc`, one signature. -/
def firstWithdraw : StringResult × World :=
  bridge.Withdraw bridgeService countingWorld (str "10") (str "0xabc") [str "sigA"]

/-- A second withdrawal citing the same source hash, made right after
`firstWithdraw`, with two signatures. -/
def secondWithdraw : StringResult × World :=
  bridge.Withdraw bridgeService firstWithdraw.2 (str "10") (str "0xabc")
    [str "sigA", str "sigB"]

/-- The sponsorship request used to run the paymaster model. -/
def firstSponsor : StringResult × World :=
  paymaster.SponsorGas paymasterService countingWorld (str "0xUser") (str "21000")
    (str "0xsig")

/-- The same sponsorship request, sent again right after `firstSponsor`. -/
def secondSponsor : StringResult × World :=
  paymaster.SponsorGas paymasterService firstSponsor.2 (str "0xUser") (str "21000")
    (str "0xsig")

/-- The invoice of the specification's scenario: amount 1.5, description `test`,
expiry 3600. -/
def sampleInvoice : StringResult × World :=
  payment.CreateInvoice paymentService countingWorld (str "1.5") (str "test") 3600

/-! ## Wallet: connection kinds and key normalisation -/

theorem hasPrefix_marker_append (k : GoString) :
    strings.HasPrefix (str "0x" ++ k) (str "0x") = true := by
  have h : str "0x" = [48, 120] := by decide
  simp [strings.HasPrefix, h]

theorem sliceFrom_marker_append (k : GoString) :
    sliceFrom (str "0x" ++ k) 2 = some k := by
  have h : str "0x" = [48, 120] := by decide
  simp [sliceFrom, h]

theorem sliceFrom_of_hasPrefix (k : GoString)
    (h : strings.HasPrefix k (str "0x") = true) : sliceFrom k 2 = some (k.drop 2) := by
  have h2 : (str "0x").length = 2 := by decide
  simp only [strings.HasPrefix, h2, Bool.and_eq_true, decide_eq_true_eq] at h
  simp [sliceFrom, h.1]

/-- The body of the `privateKey` case hands `keyDigits privateKey` to the parser. -/
theorem connect_privateKey_eq (lib : Crypto) (s : wallet.Service)
    (k m : GoString) (i : Int) :
    wallet.Connect lib s (str "privateKey") k m i =
      match lib.HexToECDSA (wallet.keyDigits k) with
      | .error err => .returns ([], some ⟨str "invalid private key: " ++ err.msg⟩)
      | .ok key => .returns (lib.Hex (lib.PubkeyToAddress key.PublicKey), none) := by
  unfold wallet.Connect wallet.keyDigits
  by_cases h : strings.HasPrefix k (str "0x") = true
  · simp only [h, if_true, Bool.not_true, Bool.false_eq_true, if_false,
      sliceFrom_of_hasPrefix k h]
    cases lib.HexToECDSA (k.drop 2) <;> rfl
  · have h' : strings.HasPrefix k (str "0x") = false := by simpa using h
    simp only [h', Bool.not_false, if_true, Bool.false_eq_true, if_false,
      sliceFrom_marker_append]
    cases lib.HexToECDSA k <;> rfl

/-- C1: for every connection kind other than `privateKey` (so for `mnemonic` and
for every unknown kind), whatever private key, mnemonic and derivation index
come with it, `Connect` returns the empty address together with a non-nil error:
the "not implemented" error for `mnemonic`, the "unsupported connection type"
error otherwise. No address is ever produced on these paths. -/
theorem connect_other_kind_fails (lib : Crypto) (s : wallet.Service)
    (kind privateKey mnemonic : GoString) (derivationIndex : Int)
    (h : kind ≠ str "privateKey") :
    wallet.Connect lib s kind privateKey mnemonic derivationIndex =
      .returns ([], some ⟨if kind = str "mnemonic"
        then str "mnemonic connection not implemented yet"
        else str "unsupported connection type: " ++ kind⟩) := by
  unfold wallet.Connect
  rw [if_neg h]
  by_cases hm : kind = str "mnemonic"
  · rw [if_pos hm, if_pos hm]
  · rw [if_neg hm, if_neg hm]

theorem connect_other_kind_fails_witness :
    str "ledger" ≠ str "privateKey" ∧
    wallet.Connect sampleCrypto walletService (str "ledger") sampleKey (str "abandon") 3 =
      .returns ([], some ⟨if str "ledger" = str "mnemonic"
        then str "mnemonic connection not implemented yet"
        else str "unsupported connection type: " ++ str "ledger"⟩) :=
  ⟨by decide, connect_other_kind_fails sampleCrypto walletService (str "ledger") sampleKey
    (str "abandon") 3 (by decide)⟩

/-- C2: for every private-key text `k` that does not start with the `0x` marker,
`Connect` with kind `privateKey` returns the same result for `k` and for `0x`
followed by `k`, and in both cases that result is the one determined by the
parser applied to exactly `k`: the "invalid private key" error when the parser
rejects `k`, the derived address otherwise. -/
theorem connect_marker_optional (lib : Crypto) (s : wallet.Service)
    (k mnemonic : GoString) (derivationIndex : Int)
    (h : strings.HasPrefix k (str "0x") = false) :
    wallet.Connect lib s (str "privateKey") k mnemonic derivationIndex =
      wallet.Connect lib s (str "privateKey") (str "0x" ++ k) mnemonic derivationIndex ∧
    wallet.Connect lib s (str "privateKey") (str "0x" ++ k) mnemonic derivationIndex =
      match lib.HexToECDSA k with
      | .error err => .returns ([], some ⟨str "invalid private key: " ++ err.msg⟩)
      | .ok key => .returns (lib.Hex (lib.PubkeyToAddress key.PublicKey), none) := by
  have hk : wallet.keyDigits k = k := by simp [wallet.keyDigits, h]
  have hk' : wallet.keyDigits (str "0x" ++ k) = k := by
    have h2 : str "0x" = [48, 120] := by decide
    unfold wallet.keyDigits
    rw [if_pos (hasPrefix_marker_append k), h2]
    rfl
  rw [connect_privateKey_eq, connect_privateKey_eq, hk, hk']
  exact ⟨rfl, rfl⟩

theorem connect_marker_optional_witness :
    strings.HasPrefix sampleKey (str "0x") = false ∧
    (wallet.Connect sampleCrypto walletService (str "privateKey") sampleKey [] 0 =
      wallet.Connect sampleCrypto walletService (str "privateKey") (str "0x" ++ sampleKey) [] 0 ∧
    wallet.Connect sampleCrypto walletService (str "privateKey") (str "0x" ++ sampleKey) [] 0 =
      match sampleCrypto.HexToECDSA sampleKey with
      | .error err => .returns ([], some ⟨str "invalid private key: " ++ err.msg⟩)
      | .ok key =>
        .returns (sampleCrypto.Hex (sampleCrypto.PubkeyToAddress key.PublicKey), none)) :=
  ⟨by decide, connect_marker_optional sampleCrypto walletService sampleKey [] 0 (by decide)⟩

/-- C3: `Connect` is a function of the connection kind and the key text alone.
For every key text whose digits the parser accepts, every call with kind
`privateKey` returns, with a nil error, the address of the parsed key; so any
two such calls return the same address, whatever service value, mnemonic and
derivation index accompany each of them. The service is only read, never
written, so earlier calls cannot change the answer. -/
theorem connect_deterministic (lib : Crypto) (s1 s2 : wallet.Service)
    (k m1 m2 : GoString) (i1 i2 : Int) (key : ecdsa.PrivateKey)
    (hvalid : lib.HexToECDSA (wallet.keyDigits k) = .ok key) :
    wallet.Connect lib s1 (str "privateKey") k m1 i1 =
      .returns (lib.Hex (lib.PubkeyToAddress key.PublicKey), none) ∧
    wallet.Connect lib s2 (str "privateKey") k m2 i2 =
      wallet.Connect lib s1 (str "privateKey") k m1 i1 := by
  rw [connect_privateKey_eq, connect_privateKey_eq, hvalid]
  exact ⟨rfl, rfl⟩

theorem connect_deterministic_witness :
    sampleCrypto.HexToECDSA (wallet.keyDigits (str "0x" ++ sampleKey)) = .ok ⟨⟨1, 2⟩, 1⟩ ∧
    (wallet.Connect sampleCrypto walletService (str "privateKey") (str "0x" ++ sampleKey)
        (str "abandon") 0 =
      .returns (sampleCrypto.Hex (sampleCrypto.PubkeyToAddress ⟨1, 2⟩), none) ∧
    wallet.Connect sampleCrypto ⟨defaultConfig, [], [1]⟩ (str "privateKey")
        (str "0x" ++ sampleKey) (str "zoo") 7 =
      wallet.Connect sampleCrypto walletService (str "privateKey") (str "0x" ++ sampleKey)
        (str "abandon") 0) :=
  ⟨rfl, connect_deterministic sampleCrypto walletService ⟨defaultConfig, [], [1]⟩
    (str "0x" ++ sampleKey) (str "abandon") (str "zoo") 0 7 ⟨⟨1, 2⟩, 1⟩ rfl⟩

/-- C11: `Connect` with kind `privateKey` never slices out of range. For every
key text (the empty one and those of a single byte included) the text obtained
by the marker normalisation has at least two bytes, so the slice from position
2 is in bounds and is the key text without its marker; the call therefore never
panics, and it returns the "invalid private key" error whenever the parser
rejects those digits, the derived address otherwise. -/
theorem connect_slice_in_bounds (lib : Crypto) (s : wallet.Service)
    (k mnemonic : GoString) (derivationIndex : Int) :
    2 ≤ (if !strings.HasPrefix k (str "0x") then str "0x" ++ k else k).length ∧
    sliceFrom (if !strings.HasPrefix k (str "0x") then str "0x" ++ k else k) 2 =
      some (wallet.keyDigits k) ∧
    wallet.Connect lib s (str "privateKey") k mnemonic derivationIndex ≠ .panics ∧
    wallet.Connect lib s (str "privateKey") k mnemonic derivationIndex =
      match lib.HexToECDSA (wallet.keyDigits k) with
      | .error err => .returns ([], some ⟨str "invalid private key: " ++ err.msg⟩)
      | .ok key => .returns (lib.Hex (lib.PubkeyToAddress key.PublicKey), none) := by
  have h2 : (str "0x").length = 2 := by decide
  have hconn := connect_privateKey_eq lib s k mnemonic derivationIndex
  refine ⟨?_, ?_, ?_, hconn⟩
  · by_cases h : strings.HasPrefix k (str "0x") = true
    · have hlen : 2 ≤ k.length := by
        simp only [strings.HasPrefix, h2, Bool.and_eq_true, decide_eq_true_eq] at h
        exact h.1
      simpa [h] using hlen
    · have h' : strings.HasPrefix k (str "0x") = false := by simpa using h
      simp [h', h2]
  · unfold wallet.keyDigits
    by_cases h : strings.HasPrefix k (str "0x") = true
    · simp only [h, Bool.not_true, Bool.false_eq_true, if_false, if_true]
      exact sliceFrom_of_hasPrefix k h
    · have h' : strings.HasPrefix k (str "0x") = false := by simpa using h
      simp only [h', Bool.not_false, if_true, Bool.false_eq_true, if_false]
      exact sliceFrom_marker_append k
  · rw [hconn]
    cases lib.HexToECDSA (wallet.keyDigits k) <;> simp

/-- The model run on the shortest key texts: the empty text, a single byte and
the bare marker are each rejected with the "invalid private key" error. -/
theorem connect_short_keys_rejected :
    wallet.Connect sampleCrypto walletService (str "privateKey") [] [] 0 =
      .returns ([], some ⟨str "invalid private key: invalid length, need 256 bits"⟩) ∧
    wallet.Connect sampleCrypto walletService (str "privateKey") (str "7") [] 0 =
      .returns ([], some ⟨str "invalid private key: invalid length, need 256 bits"⟩) ∧
    wallet.Connect sampleCrypto walletService (str "privateKey") (str "0") [] 0 =
      .returns ([], some ⟨str "invalid private key: invalid length, need 256 bits"⟩) ∧
    wallet.Connect sampleCrypto walletService (str "privateKey") (str "0x") [] 0 =
      .returns ([], some ⟨str "invalid private key: invalid length, need 256 bits"⟩) := by
  decide

/-! ## Hex encoding and the random source -/

theorem digit_isLowerHexDigit (i : Nat) (h : i < 16) : hex.isLowerHexDigit (hex.digit i) := by
  have key : ∀ j : Fin 16, hex.isLowerHexDigit (hex.digit j.val) := by decide
  exact key ⟨i, h⟩

theorem digit_injective (i j : Nat) (hi : i < 16) (hj : j < 16)
    (h : hex.digit i = hex.digit j) : i = j := by
  have key : ∀ a b : Fin 16, hex.digit a.val = hex.digit b.val → a = b := by decide
  exact congrArg Fin.val (key ⟨i, hi⟩ ⟨j, hj⟩ h)

theorem encodeToString_length (src : List UInt8) :
    (hex.EncodeToString src).length = 2 * src.length := by
  induction src with
  | nil => rfl
  | cons v rest ih => simp only [hex.EncodeToString, List.length_cons, ih]; omega

theorem encodeToString_digits (src : List UInt8) :
    ∀ c ∈ hex.EncodeToString src, hex.isLowerHexDigit c := by
  induction src with
  | nil => intro c hc; simp [hex.EncodeToString] at hc
  | cons v rest ih =>
    intro c hc
    have hv : v.toNat < 256 := UInt8.toNat_lt v
    simp only [hex.EncodeToString, List.mem_cons] at hc
    rcases hc with rfl | rfl | hc
    · exact digit_isLowerHexDigit _ (by omega)
    · exact digit_isLowerHexDigit _ (by omega)
    · exact ih c hc

theorem encodeToString_injective :
    ∀ a b : List UInt8, hex.EncodeToString a = hex.EncodeToString b → a = b := by
  intro a
  induction a with
  | nil =>
    intro b h
    cases b with
    | nil => rfl
    | cons v rest => simp [hex.EncodeToString] at h
  | cons u as ih =>
    intro b h
    cases b with
    | nil => simp [hex.EncodeToString] at h
    | cons v bs =>
      simp only [hex.EncodeToString, List.cons.injEq] at h
      obtain ⟨hhi, hlo, hrest⟩ := h
      have hu : u.toNat < 256 := UInt8.toNat_lt u
      have hv : v.toNat < 256 := UInt8.toNat_lt v
      have h1 := digit_injective _ _ (by omega) (by omega) hhi
      have h2 := digit_injective _ _ (by omega) (by omega) hlo
      have huv : u = v := UInt8.ext (by omega)
      rw [huv, ih bs hrest]

theorem randRead_length (w : World) (n : Nat) : (randRead w n).1.length = n := by
  simp [randRead]

/-! ## Bridge: withdrawals, status and transfer ids -/

/-- C4, counterexample: in the specification's scenario a withdrawal citing
source hash `0xabc` returns a transfer id with a nil error, and a second
withdrawal citing the same hash right after it also returns a (different)
transfer id with a nil error instead of being rejected. -/
theorem withdraw_same_hash_twice_accepted :
    firstWithdraw.1.2 = none ∧ firstWithdraw.1.1 ≠ [] ∧
    secondWithdraw.1.2 = none ∧ secondWithdraw.1.1 ≠ [] ∧
    secondWithdraw.1.1 ≠ firstWithdraw.1.1 := by
  decide

/-- C4, amended: `Withdraw` keeps no record of source hashes. After one
`Withdraw` citing a hash has returned, a later `Withdraw` citing the same hash,
whether made right after it or in any later state `later` of the random source,
and whatever its amount and signatures, returns a nil error and a transfer id:
the hex encoding of the next 32 random bytes, 64 characters long. -/
theorem withdraw_never_rejects (s : bridge.Service) (w later : World)
    (amount amount2 hash : GoString) (signatures signatures2 : List GoString) :
    (bridge.Withdraw s w amount hash signatures).1.2 = none ∧
    (bridge.Withdraw s (bridge.Withdraw s w amount hash signatures).2
        amount2 hash signatures2).1 =
      (hex.EncodeToString
        (randRead (bridge.Withdraw s w amount hash signatures).2 32).1, none) ∧
    (bridge.Withdraw s later amount2 hash signatures2).1 =
      (hex.EncodeToString (randRead later 32).1, none) ∧
    (bridge.Withdraw s later amount2 hash signatures2).1.1.length = 64 := by
  refine ⟨rfl, rfl, rfl, ?_⟩
  show (hex.EncodeToString (randRead later 32).1).length = 64
  rw [encodeToString_length, randRead_length]

/-- C5, counterexample: with a threshold of 2 and every signature counted as
valid, the request with the two distinct signatures `sigA`, `sigB` reaches the
threshold, yet the status reported for the returned transfer id is `pending`,
not `confirmed`. -/
theorem status_pending_at_threshold :
    2 ≤ spec.distinctValidCount (fun _ => true) [str "sigA", str "sigB"] ∧
    (bridge.GetStatus bridgeService
        (bridge.Withdraw bridgeService countingWorld (str "10") (str "0xabc")
          [str "sigA", str "sigB"]).1.1).1.get (str "status") = some (str "pending") ∧
    (bridge.GetStatus bridgeService
        (bridge.Withdraw bridgeService countingWorld (str "10") (str "0xabc")
          [str "sigA", str "sigB"]).1.1).1.get (str "status") ≠ some (str "confirmed") := by
  decide

/-- C5, amended: for every withdrawal request, whatever its signatures,
`GetStatus` on the transfer id returned by `Withdraw` succeeds and reports the
status `pending`; it never reports `confirmed`. -/
theorem status_always_pending (s : bridge.Service) (w : World)
    (amount hash : GoString) (signatures : List GoString) :
    (bridge.GetStatus s (bridge.Withdraw s w amount hash signatures).1.1).2 = none ∧
    (bridge.GetStatus s (bridge.Withdraw s w amount hash signatures).1.1).1.get
      (str "status") = some (str "pending") ∧
    (bridge.GetStatus s (bridge.Withdraw s w amount hash signatures).1.1).1.get
      (str "status") ≠ some (str "confirmed") := by
  have hkey : (str "status" == str "id") = false := by decide
  have hne : some (str "pending") ≠ some (str "confirmed") := by decide
  have hget : (bridge.GetStatus s (bridge.Withdraw s w amount hash signatures).1.1).1.get
      (str "status") = some (str "pending") := by
    simp only [bridge.GetStatus, GoMap.get, List.lookup, hkey, beq_self_eq_true]
  exact ⟨rfl, hget, by rw [hget]; exact hne⟩

/-- C6, counterexample: the amount `0` is not a positive decimal number, yet
`Deposit` and `Withdraw` called with it return a nil error and a non-empty
transfer id. -/
theorem zero_amount_accepted :
    spec.isPositiveDecimal (str "0") = false ∧
    (bridge.Deposit bridgeService countingWorld (str "0")).1.2 = none ∧
    (bridge.Deposit bridgeService countingWorld (str "0")).1.1 ≠ [] ∧
    (bridge.Withdraw bridgeService countingWorld (str "0") (str "0xabc") [str "sigA"]).1.2
      = none ∧
    (bridge.Withdraw bridgeService countingWorld (str "0") (str "0xabc") [str "sigA"]).1.1
      ≠ [] := by
  decide

/-- C6, amended: `Deposit` and `Withdraw` do not look at the amount. For every
amount text (zero, negative, empty and non-numeric ones included) both return a
nil error and a transfer id of 64 characters, the hex encoding of the next 32
random bytes. -/
theorem amount_not_validated (s : bridge.Service) (w : World)
    (amount hash : GoString) (signatures : List GoString) :
    (bridge.Deposit s w amount).1 = (hex.EncodeToString (randRead w 32).1, none) ∧
    (bridge.Withdraw s w amount hash signatures).1 =
      (hex.EncodeToString (randRead w 32).1, none) ∧
    (hex.EncodeToString (randRead w 32).1).length = 64 := by
  refine ⟨rfl, rfl, ?_⟩
  rw [encodeToString_length, randRead_length]

/-- C7: with `(randRead w 32).1` the 32 bytes drawn from the random source, the
id returned by `Deposit` and by `Withdraw` is, with a nil error, the hex
encoding of those bytes; it has exactly 64 characters, each one of `0`-`9`,
`a`-`f`; it does not depend on the request arguments; and two ids (of two
deposits, of two withdrawals, or of a deposit and a withdrawal) are equal only
if the 32 bytes drawn for them are equal. -/
theorem transfer_id_hex_of_random_bytes (s : bridge.Service) (w w2 : World)
    (amount amount2 hash hash2 : GoString) (signatures signatures2 : List GoString) :
    (randRead w 32).1.length = 32 ∧
    (bridge.Deposit s w amount).1 = (hex.EncodeToString (randRead w 32).1, none) ∧
    (bridge.Withdraw s w amount hash signatures).1 =
      (hex.EncodeToString (randRead w 32).1, none) ∧
    (hex.EncodeToString (randRead w 32).1).length = 64 ∧
    (∀ c ∈ hex.EncodeToString (randRead w 32).1, hex.isLowerHexDigit c) ∧
    (bridge.Deposit s w amount2).1 = (bridge.Deposit s w amount).1 ∧
    (bridge.Withdraw s w amount2 hash2 signatures2).1 =
      (bridge.Withdraw s w amount hash signatures).1 ∧
    ((bridge.Deposit s w2 amount2).1.1 = (bridge.Deposit s w amount).1.1 →
      (randRead w2 32).1 = (randRead w 32).1) ∧
    ((bridge.Withdraw s w2 amount2 hash2 signatures2).1.1 =
        (bridge.Withdraw s w amount hash signatures).1.1 →
      (randRead w2 32).1 = (randRead w 32).1) ∧
    ((bridge.Withdraw s w2 amount2 hash2 signatures2).1.1 = (bridge.Deposit s w amount).1.1 →
      (randRead w2 32).1 = (randRead w 32).1) := by
  refine ⟨randRead_length w 32, rfl, rfl, ?_, encodeToString_digits _, rfl, rfl, ?_, ?_, ?_⟩
  · rw [encodeToString_length, randRead_length]
  · exact encodeToString_injective _ _
  · exact encodeToString_injective _ _
  · exact encodeToString_injective _ _

/-! ## Paymaster: session keys and sponsorship -/

/-- C8, counterexample: at current time 1000 the expiries 1000, 0 and -1 are not
strictly later than now, yet `CreateSessionKey` returns a nil error and a
non-empty session key for each of them. -/
theorem past_expiry_accepted :
    (1000 : Int) ≤ 1000 ∧ (0 : Int) ≤ 1000 ∧ (-1 : Int) ≤ 1000 ∧
    (paymaster.CreateSessionKey paymasterService countingWorld 1000).1.2 = none ∧
    (paymaster.CreateSessionKey paymasterService countingWorld 1000).1.1 ≠ [] ∧
    (paymaster.CreateSessionKey paymasterService countingWorld 0).1.2 = none ∧
    (paymaster.CreateSessionKey paymasterService countingWorld 0).1.1 ≠ [] ∧
    (paymaster.CreateSessionKey paymasterService countingWorld (-1)).1.2 = none ∧
    (paymaster.CreateSessionKey paymasterService countingWorld (-1)).1.1 ≠ [] := by
  decide

/-- C8, amended: `CreateSessionKey` does not look at the expiry and reads no
clock. For every expiry (zero, negative and past ones included) it returns a nil
error and a session key: `0x` followed by the hex encoding of the next 20 random
bytes, 42 characters in all; the key is the same for every expiry. -/
theorem expiry_not_validated (s : paymaster.Service) (w : World) (expiry expiry2 : Int) :
    (paymaster.CreateSessionKey s w expiry).1 =
      (str "0x" ++ hex.EncodeToString (randRead w 20).1, none) ∧
    (paymaster.CreateSessionKey s w expiry).1.1.length = 42 ∧
    paymaster.CreateSessionKey s w expiry2 = paymaster.CreateSessionKey s w expiry := by
  refine ⟨rfl, ?_, rfl⟩
  show (str "0x" ++ hex.EncodeToString (randRead w 20).1).length = 42
  have h : (str "0x").length = 2 := by decide
  rw [List.length_append, encodeToString_length, randRead_length, h]

/-- C9, counterexample: the sponsorship request (`0xUser`, `21000`, `0xsig`)
returns a transaction hash with a nil error, and the same request sent again
right after it returns another transaction hash with a nil error instead of
being rejected. -/
theorem sponsor_same_request_twice_accepted :
    firstSponsor.1.2 = none ∧ firstSponsor.1.1 ≠ [] ∧
    secondSponsor.1.2 = none ∧ secondSponsor.1.1 ≠ [] ∧
    secondSponsor.1.1 ≠ firstSponsor.1.1 := by
  decide

/-- C9, amended: `SponsorGas` keeps no record of earlier requests. After one
`SponsorGas` call has returned, a second call with the same user, gas amount and
signature, whether made right after it or in any later state `later` of the
random source, returns a nil error and a transaction hash: `0x` followed by the
hex encoding of the next 32 random bytes, 66 characters in all. -/
theorem sponsor_never_rejects (s : paymaster.Service) (w later : World)
    (user gasUsed signature : GoString) :
    (paymaster.SponsorGas s w user gasUsed signature).1.2 = none ∧
    (paymaster.SponsorGas s (paymaster.SponsorGas s w user gasUsed signature).2
        user gasUsed signature).1 =
      (str "0x" ++ hex.EncodeToString
        (randRead (paymaster.SponsorGas s w user gasUsed signature).2 32).1, none) ∧
    (paymaster.SponsorGas s later user gasUsed signature).1 =
      (str "0x" ++ hex.EncodeToString (randRead later 32).1, none) ∧
    (paymaster.SponsorGas s later user gasUsed signature).1.1.length = 66 := by
  refine ⟨rfl, rfl, rfl, ?_⟩
  show (str "0x" ++ hex.EncodeToString (randRead later 32).1).length = 66
  have h : (str "0x").length = 2 := by decide
  rw [List.length_append, encodeToString_length, randRead_length, h]

/-! ## Payment: the invoice scenario -/

/-- C10, counterexample: in the specification's scenario (amount 1.5,
description `test`, expiry 3600 at current time 0) the invoice is created with
a nil error, `ProcessPayment` on its id with payer `0xCustomer` returns a transaction
hash with a nil error, and `GetPayment` on that id after it reports the status
`pending`, not `paid`. -/
theorem paid_status_never_reported :
    spec.isPositiveDecimal (str "1.5") = true ∧ str "test" ≠ [] ∧ (0 : Int) < 3600 ∧
    sampleInvoice.1.2 = none ∧
    payment.ProcessPayment paymentService sampleInvoice.1.1 (str "0xCustomer") =
      (str "0xplaceholder_tx_hash", none) ∧
    (payment.GetPayment paymentService sampleInvoice.1.1).1.get (str "status") =
      some (str "pending") ∧
    (payment.GetPayment paymentService sampleInvoice.1.1).1.get (str "status") ≠
      some (str "paid") := by
  decide

/-- C10, amended: for every invoice created by `CreateInvoice`, whatever its
amount, description and expiry, the creation returns a nil error and an id;
`GetPayment` on that id succeeds and reports the status `pending`;
`ProcessPayment` on that id with any payer returns the transaction hash
`0xplaceholder_tx_hash` with a nil error; and `GetPayment` on that id, which
reads only the service value that no call changes, still reports `pending` and
never `paid`. -/
theorem invoice_stays_pending (s : payment.Service) (w : World)
    (amount description payer : GoString) (expiry : Int) :
    (payment.CreateInvoice s w amount description expiry).1 =
      (hex.EncodeToString (randRead w 32).1, none) ∧
    (payment.GetPayment s (payment.CreateInvoice s w amount description expiry).1.1).2
      = none ∧
    (payment.GetPayment s (payment.CreateInvoice s w amount description expiry).1.1).1.get
      (str "status") = some (str "pending") ∧
    payment.ProcessPayment s (payment.CreateInvoice s w amount description expiry).1.1 payer
      = (str "0xplaceholder_tx_hash", none) ∧
    (payment.GetPayment s (payment.CreateInvoice s w amount description expiry).1.1).1.get
      (str "status") ≠ some (str "paid") := by
  have hkey : (str "status" == str "id") = false := by decide
  have hne : some (str "pending") ≠ some (str "paid") := by decide
  have hget : (payment.GetPayment s
      (payment.CreateInvoice s w amount description expiry).1.1).1.get (str "status") =
      some (str "pending") := by
    simp only [payment.GetPayment, GoMap.get, List.lookup, hkey, beq_self_eq_true]
  exact ⟨rfl, rfl, hget, rfl, by rw [hget]; exact hne⟩

end Vyra
